import Mathlib

/-!
Verification of the rule-scan-and-risk-scoring core of the compliance
analysis program (`analyzer.py`).

Modelling conventions:
* Python strings are modelled as `List Char` (abbreviated `Str`); Python
  slicing `s[a:b]` with nonnegative clamped indices is `pySlice`.
* The external LLM (`self.llm.invoke`), the regex engine (`re.finditer`),
  the per-format document loaders and the agent (`self.agent.run`) are
  external collaborators: they are passed in as function parameters.
  Fallible external calls return `Except Str _`; a Python exception
  propagating out of a call is the `Except.error` case, and the absence of
  any `try`/`except` in the source is modelled by monadic bind, which
  short-circuits on `error` exactly as an uncaught exception does.
* `re.finditer(pattern, text, re.IGNORECASE)` is modelled abstractly as a
  function `fd : Str → Str → List (Nat × Nat)` returning the list of match
  spans `(start, end)` in the order finditer yields them (left-to-right,
  non-overlapping).  A concrete instance `lit_finditer` implementing
  case-insensitive non-overlapping left-to-right search for literal
  (metacharacter-free) patterns is provided for concrete evaluation.
-/

/-- Python strings, modelled as lists of characters. -/
abbrev Str := List Char

/-- Python slicing `s[a:b]` for nonnegative indices: drop `a`, then take
`b - a` characters (empty when `b ≤ a`; clamped at the end of the list). -/
def pySlice (s : Str) (a b : Nat) : Str :=
  (s.drop a).take (b - a)

/-- Python `str.lower()` (restricted to the ASCII rule labels the program
uses). -/
def pyLower (s : Str) : Str := s.map Char.toLower

/-- Python `sub in s` substring test (contiguous-substring containment). -/
def containsSub (s sub : Str) : Bool := decide (sub <:+: s)

/-- Python `s.endswith(suffix)`. -/
def endsWith (s suffix : Str) : Bool := suffix.isSuffixOf s

/-- Python `sep.join(parts)`. -/
def pyJoin (sep : Str) : List Str → Str
  | [] => []
  | [p] => p
  | p :: q :: rest => p ++ sep ++ pyJoin sep (q :: rest)

/-- Embeds `Analysis._extract_context` (analyzer.py lines 99–102):
`left = max(start - window, 0)`, `right = min(end + window, len(text))`,
return `text[left:right]`.  The subtraction is done over `Int` as in
Python, then converted to a list index. -/
def extract_context (text : Str) (start stop : Nat) (window : Nat := 100) : Str :=
  let left : Int := max ((start : Int) - (window : Int)) 0
  let right : Int := min ((stop : Int) + (window : Int)) ((text.length : Int))
  pySlice text left.toNat right.toNat

/-- One flagged violation, embedding the dict built in
`Analysis.rule_based_scan` (analyzer.py lines 113–118).  The Python dict
key `"match"` is a Lean keyword, so the field is named `matched`. -/
structure Finding where
  rule : Str
  matched : Str
  context : Str
  llm_judgment : Str
deriving DecidableEq, Repr

/-- The score-accumulation loop of `Analysis.assess_risk_level`
(analyzer.py lines 122–130): starting from `risk_score = 0`, for each
violation lowercase its rule label and add 3 / 2 / 1 according to the
substring buckets, in the if/elif/else order of the source. -/
def risk_score (violations : List Finding) : Nat :=
  violations.foldl
    (fun acc v =>
      let rule := pyLower v.rule
      if containsSub rule ("breach".toList) || containsSub rule ("encryption".toList) then
        acc + 3
      else if containsSub rule ("consent".toList) || containsSub rule ("data sharing".toList) then
        acc + 2
      else
        acc + 1)
    0

/-- Embeds `Analysis.assess_risk_level` (analyzer.py lines 121–137): the
accumulated score is mapped to `"High"` when `≥ 6`, else `"Medium"` when
`≥ 3`, else `"Low"`. -/
def assess_risk_level (violations : List Finding) : Str :=
  let s := risk_score violations
  if s ≥ 6 then "High".toList
  else if s ≥ 3 then "Medium".toList
  else "Low".toList

/-- Spec-side per-finding weight, written from the claim wording: compare
the rule id case-insensitively; +3 if it contains "breach" or
"encryption"; otherwise +2 if it contains "consent" or "data sharing";
otherwise +1, the +3 bucket checked first. -/
def specWeight (rule_id : Str) : Nat :=
  let r := pyLower rule_id
  if containsSub r ("breach".toList) || containsSub r ("encryption".toList) then 3
  else if containsSub r ("consent".toList) || containsSub r ("data sharing".toList) then 2
  else 1

/-- Spec-side score-to-level map, written from the claim wording:
`score >= 6 → High`, `3 <= score < 6 → Medium`, `score < 3 → Low`. -/
def specLevel (score : Nat) : Str :=
  if 6 ≤ score then "High".toList
  else if 3 ≤ score then "Medium".toList
  else "Low".toList

/-- Rank of a risk-level string under the order Low < Medium < High. -/
def levelRank (level : Str) : Nat :=
  if level = "High".toList then 2
  else if level = "Medium".toList then 1
  else 0

theorem risk_score_step (n : Nat) (v : Finding) :
    (let rule := pyLower v.rule
     if containsSub rule ("breach".toList) || containsSub rule ("encryption".toList) then
       n + 3
     else if containsSub rule ("consent".toList) || containsSub rule ("data sharing".toList) then
       n + 2
     else
       n + 1) = n + specWeight v.rule := by
  simp only [specWeight]
  split
  · rfl
  · split
    · rfl
    · rfl

theorem risk_score_foldl_shift (vs : List Finding) (n : Nat) :
    vs.foldl
      (fun acc v =>
        let rule := pyLower v.rule
        if containsSub rule ("breach".toList) || containsSub rule ("encryption".toList) then
          acc + 3
        else if containsSub rule ("consent".toList) || containsSub rule ("data sharing".toList) then
          acc + 2
        else
          acc + 1)
      n = n + (vs.map (fun v => specWeight v.rule)).sum := by
  induction vs generalizing n with
  | nil => simp
  | cons v rest ih =>
      rw [List.foldl_cons, risk_score_step, ih, List.map_cons, List.sum_cons]
      omega

theorem risk_score_eq_sum (vs : List Finding) :
    risk_score vs = (vs.map (fun v => specWeight v.rule)).sum := by
  have h := risk_score_foldl_shift vs 0
  simpa [risk_score] using h

/-- The adjudication prompt built in `Analysis.rule_based_scan`
(analyzer.py line 111), an f-string interpolating the rule label and the
extracted context. -/
def mk_prompt (label context : Str) : Str :=
  "In the following policy text, does this indicate a violation of \x27".toList
    ++ label ++ "\x27?\n\n\"".toList ++ context ++ "\"".toList

/-- Inner loop of `Analysis.rule_based_scan` (analyzer.py lines 108–118):
for each match span of one rule, take `match.group()` (the literal matched
slice), extract the context, invoke the LLM on the prompt, and append the
flagged dict.  The `llm.invoke` call is not guarded by any `try`/`except`
in the source, so its failure short-circuits via monadic bind. -/
def scan_matches (llm : Str → Except Str Str) (text label : Str) :
    List (Nat × Nat) → Except Str (List Finding)
  | [] => .ok []
  | (s, e) :: rest => do
      let matched_text := pySlice text s e
      let context := extract_context text s e
      let response ← llm (mk_prompt label context)
      let tail ← scan_matches llm text label rest
      return { rule := label, matched := matched_text, context := context,
               llm_judgment := response } :: tail

/-- Embeds `Analysis.rule_based_scan` (analyzer.py lines 104–119): the
outer loop walks the rules in the rule mapping's insertion order; for each
rule, `re.finditer(pattern, text, flags=re.IGNORECASE)` — modelled by the
span function `fd` — yields the non-overlapping matches left to right, and
each match is flagged by the inner loop.  Accumulation of `flagged` across
rules is list concatenation. -/
def rule_based_scan (llm : Str → Except Str Str)
    (fd : Str → Str → List (Nat × Nat)) (text : Str) :
    List (Str × Str) → Except Str (List Finding)
  | [] => .ok []
  | (label, pat) :: rest => do
      let here ← scan_matches llm text label (fd pat text)
      let tail ← rule_based_scan llm fd text rest
      return here ++ tail

/-- Spec-side description of a successful scan, written from the claim
wording: one finding per match span, outer loop over rules in insertion
order, inner loop over spans in the matcher's (left-to-right) order. -/
def scan_flat (g : Str → Str) (fd : Str → Str → List (Nat × Nat))
    (text : Str) (rules : List (Str × Str)) : List Finding :=
  rules.flatMap (fun lp =>
    (fd lp.2 text).map (fun se =>
      { rule := lp.1
        matched := pySlice text se.1 se.2
        context := extract_context text se.1 se.2
        llm_judgment := g (mk_prompt lp.1 (extract_context text se.1 se.2)) }))

/-- Case-insensitive prefix test used by the concrete matcher model. -/
def isPrefixCI (pat t : Str) : Bool := List.isPrefixOf (pyLower pat) (pyLower t)

/-- Fuel-driven search loop behind `lit_finditer`. -/
def lit_scan (pat : Str) : Nat → Str → Nat → List (Nat × Nat)
  | 0, _, _ => []
  | _ + 1, [], _ => []
  | fuel + 1, c :: rest, pos =>
      if isPrefixCI pat (c :: rest) && !pat.isEmpty then
        (pos, pos + pat.length) ::
          lit_scan pat fuel (List.drop (pat.length - 1) rest) (pos + pat.length)
      else
        lit_scan pat fuel rest (pos + 1)

/-- Concrete model of Python `re.finditer(pattern, text, re.IGNORECASE)`
for nonempty literal (metacharacter-free) patterns: case-insensitive,
non-overlapping, left-to-right; each span is `(match.start, match.end)`.
It instantiates the abstract span function in concrete evaluations. -/
def lit_finditer (pat text : Str) : List (Nat × Nat) :=
  lit_scan pat text.length text 0

/-- A parsed JSON value, the possible results of Python `json.load`. -/
inductive JsonValue where
  | null : JsonValue
  | bool (b : Bool) : JsonValue
  | num (n : Int) : JsonValue
  | str (s : Str) : JsonValue
  | arr (xs : List JsonValue) : JsonValue
  | obj (kvs : List (Str × JsonValue)) : JsonValue

/-- Embeds the rule loading in `Analysis.__init__` (analyzer.py lines
36–37): `self.regex_rules = json.load(f)`.  The JSON parser's outcome (a
parsed value, or its parse error) is passed in; the constructor stores the
parsed value as-is — it performs no validation that the value is a
string-to-string mapping and compiles no pattern. -/
def analysis_init_rules (json_load : Except Str JsonValue) :
    Except Str JsonValue :=
  match json_load with
  | .error e => .error e
  | .ok v => .ok v

/-- Helper for `re_compile_ok`: scans the pattern keeping the count of
currently open groups. -/
def parenBalance : Str → Nat → Bool
  | [], n => decide (n = 0)
  | c :: rest, n =>
      if c = '(' then parenBalance rest (n + 1)
      else if c = ')' then (if n = 0 then false else parenBalance rest (n - 1))
      else parenBalance rest n

/-- Minimal model of Python stdlib `re.compile` pattern validity (an
external library): group parentheses must balance.  In particular
`re.compile("(")` raises `re.error` (missing closing parenthesis), so the
pattern `"("` is invalid. -/
def re_compile_ok (pat : Str) : Bool := parenBalance pat 0

/-- Embeds `Analysis.load_documents` (analyzer.py lines 39–50) restricted
to its text-producing behaviour: dispatch on the file extension
(`.txt` / `.pdf` / `.docx`, else `raise ValueError("Unsupported file
type")`), run the chosen external loader, and join the loaded pages with
newlines into `self.raw_text`.  The vector-store and chain setup on lines
51–59 are external side effects with no bearing on the returned text. -/
def load_documents (txt_load pdf_load docx_load : Str → Except Str (List Str))
    (file_path : Str) : Except Str Str := do
  let documents ←
    if endsWith file_path (".txt".toList) then txt_load file_path
    else if endsWith file_path (".pdf".toList) then pdf_load file_path
    else if endsWith file_path (".docx".toList) then docx_load file_path
    else .error ("Unsupported file type".toList)
  return pyJoin ("\n".toList) documents

/-- The dict returned by `Analysis.analyze_file` (analyzer.py lines
144–148). -/
structure AnalysisResult where
  rule_based_violations : List Finding
  ai_summary : Str
  risk_level : Str
deriving DecidableEq, Repr

/-- The default query string of `Analysis.analyze_file` (analyzer.py line
143). -/
def default_query : Str :=
  "Summarize all compliance risks in the document.".toList

/-- Embeds `Analysis.analyze_file` (analyzer.py lines 139–148): load the
document, scan it, assess the risk, ask the agent for a summary (Python
`query or default` falls back to the default when `query` is `None` or
empty), and assemble the result dict.  `ask` is the external agent
(`self.ask_query`). -/
def analyze_file (txt_load pdf_load docx_load : Str → Except Str (List Str))
    (llm : Str → Except Str Str) (fd : Str → Str → List (Nat × Nat))
    (rules : List (Str × Str)) (ask : Str → Except Str Str)
    (file_path : Str) (query : Option Str) : Except Str AnalysisResult := do
  let text ← load_documents txt_load pdf_load docx_load file_path
  let rule_violations ← rule_based_scan llm fd text rules
  let risk_level := assess_risk_level rule_violations
  let effective_query :=
    match query with
    | none => default_query
    | some q => if q.isEmpty then default_query else q
  let ai_summary ← ask effective_query
  return { rule_based_violations := rule_violations, ai_summary := ai_summary,
           risk_level := risk_level }

/-- A finding with a given rule label and empty text fields, used for
concrete evaluations. -/
def sampleFinding (r : Str) : Finding :=
  { rule := r, matched := [], context := [], llm_judgment := [] }

/-- Builds a finding from its four fields. -/
def mkFinding (r m c j : Str) : Finding :=
  { rule := r, matched := m, context := c, llm_judgment := j }

theorem scan_matches_pure (g : Str → Str) (text label : Str) :
    ∀ spans : List (Nat × Nat),
      scan_matches (fun p => .ok (g p)) text label spans =
        .ok (spans.map (fun se =>
          { rule := label
            matched := pySlice text se.1 se.2
            context := extract_context text se.1 se.2
            llm_judgment := g (mk_prompt label (extract_context text se.1 se.2)) }))
  | [] => rfl
  | (s, e) :: rest => by
      simp only [scan_matches, scan_matches_pure g text label rest, List.map_cons]
      rfl

theorem rule_based_scan_pure (g : Str → Str) (fd : Str → Str → List (Nat × Nat))
    (text : Str) :
    ∀ rules : List (Str × Str),
      rule_based_scan (fun p => .ok (g p)) fd text rules =
        .ok (scan_flat g fd text rules)
  | [] => rfl
  | (label, pat) :: rest => by
      simp only [rule_based_scan, scan_matches_pure, rule_based_scan_pure g fd text rest,
        scan_flat, List.flatMap_cons]
      rfl

theorem assess_eq_specLevel (vs : List Finding) :
    assess_risk_level vs = specLevel (risk_score vs) := rfl

theorem specWeight_pos (r : Str) : 1 ≤ specWeight r := by
  simp only [specWeight]
  split
  · omega
  · split
    · omega
    · omega

theorem levelRank_specLevel (n : Nat) :
    levelRank (specLevel n) = if 6 ≤ n then 2 else if 3 ≤ n then 1 else 0 := by
  simp only [specLevel, levelRank]
  split
  · simp
  · split
    · simp
    · simp

theorem pySlice_split (t : Str) (a b c : Nat) (hab : a ≤ b) (hbc : b ≤ c) :
    pySlice t a c = pySlice t a b ++ pySlice t b c := by
  simp only [pySlice]
  have h1 : c - a = (b - a) + (c - b) := by omega
  have h2 : List.drop (b - a) (List.drop a t) = List.drop b t := by
    rw [List.drop_drop]
    congr 1
    omega
  rw [h1, List.take_add, h2]

theorem extract_context_eq_natSlice (t : Str) (s e w : Nat) :
    extract_context t s e w = pySlice t (s - w) (min (e + w) t.length) := by
  simp only [extract_context]
  congr 1
  · omega
  · omega

theorem except_bind_ok {α β : Type} (a : α) (f : α → Except Str β) :
    (Except.ok a >>= f) = f a := rfl

theorem except_bind_error {α β : Type} (err : Str) (f : α → Except Str β) :
    ((Except.error err : Except Str α) >>= f) = .error err := rfl

theorem extract_context_decomp (t : Str) (s e : Nat) (hse : s ≤ e)
    (hel : e ≤ t.length) :
    ∃ pre post, extract_context t s e = pre ++ pySlice t s e ++ post := by
  refine ⟨pySlice t (s - 100) s, pySlice t e (min (e + 100) t.length), ?_⟩
  rw [extract_context_eq_natSlice,
    pySlice_split t (s - 100) s (min (e + 100) t.length) (by omega) (by omega),
    pySlice_split t s e (min (e + 100) t.length) hse (by omega)]
  simp [List.append_assoc]

/-- Claim C1: for every finding list the aggregator's score is the sum
over findings of a per-finding weight determined solely by that finding's
rule id compared case-insensitively — +3 if it contains "breach" or
"encryption", otherwise +2 if it contains "consent" or "data sharing",
otherwise +1 — with the +3 bucket checked before the +2 bucket, so a rule
id containing both "breach" and "consent" weighs 3. -/
theorem risk_score_is_per_rule_weight_sum :
    (∀ vs : List Finding,
      risk_score vs = (vs.map (fun v => specWeight v.rule)).sum) ∧
    (∀ r : Str, containsSub (pyLower r) ("breach".toList) = true →
      containsSub (pyLower r) ("consent".toList) = true → specWeight r = 3) := by
  constructor
  · exact risk_score_eq_sum
  · intro r hb _
    have hcond : (containsSub (pyLower r) ("breach".toList) ||
        containsSub (pyLower r) ("encryption".toList)) = true := by
      rw [hb]
      rfl
    simp only [specWeight, hcond, if_true]

theorem risk_score_is_per_rule_weight_sum_witness :
    containsSub (pyLower ("Data_Breach_without_Consent".toList)) ("breach".toList) = true ∧
    containsSub (pyLower ("Data_Breach_without_Consent".toList)) ("consent".toList) = true ∧
    specWeight ("Data_Breach_without_Consent".toList) = 3 ∧
    risk_score [sampleFinding ("data_breach".toList),
      sampleFinding ("privacy_policy_missing".toList)] = 4 := by
  refine ⟨by decide, by decide,
    risk_score_is_per_rule_weight_sum.2 ("Data_Breach_without_Consent".toList)
      (by decide) (by decide), ?_⟩
  rw [risk_score_is_per_rule_weight_sum.1]
  decide

/-- Claim C2: the aggregator maps the accumulated score to a level by
score ≥ 6 → High, 3 ≤ score < 6 → Medium, score < 3 → Low; the empty list
scores 0 and is Low, one "data_breach" finding scores 3 and is Medium, and
two "data_breach" findings score 6 and are High. -/
theorem assess_risk_level_threshold_map :
    (∀ vs : List Finding, assess_risk_level vs = specLevel (risk_score vs)) ∧
    risk_score ([] : List Finding) = 0 ∧
    assess_risk_level ([] : List Finding) = "Low".toList ∧
    (∀ m c j : Str,
      risk_score [mkFinding ("data_breach".toList) m c j] = 3 ∧
      assess_risk_level [mkFinding ("data_breach".toList) m c j] =
        "Medium".toList) ∧
    (∀ m c j m2 c2 j2 : Str,
      risk_score [mkFinding ("data_breach".toList) m c j,
        mkFinding ("data_breach".toList) m2 c2 j2] = 6 ∧
      assess_risk_level [mkFinding ("data_breach".toList) m c j,
        mkFinding ("data_breach".toList) m2 c2 j2] = "High".toList) := by
  have hw : specWeight ("data_breach".toList) = 3 := by decide
  refine ⟨assess_eq_specLevel, rfl, rfl, ?_, ?_⟩
  · intro m c j
    have hs : risk_score [mkFinding ("data_breach".toList) m c j] = 3 := by
      rw [risk_score_eq_sum]
      simp [mkFinding]
      decide
    exact ⟨hs, by rw [assess_eq_specLevel, hs]; decide⟩
  · intro m c j m2 c2 j2
    have hs : risk_score [mkFinding ("data_breach".toList) m c j,
        mkFinding ("data_breach".toList) m2 c2 j2] = 6 := by
      rw [risk_score_eq_sum]
      simp [mkFinding]
      decide
    exact ⟨hs, by rw [assess_eq_specLevel, hs]; decide⟩

/-- Claim C8: permuting the finding list changes neither the total score
nor the risk level, since each finding's weight depends only on its own
rule id and the weights are summed. -/
theorem assess_risk_level_perm_invariant :
    ∀ vs vs' : List Finding, vs.Perm vs' →
      risk_score vs = risk_score vs' ∧
      assess_risk_level vs = assess_risk_level vs' := by
  intro vs vs' h
  have hs : risk_score vs = risk_score vs' := by
    rw [risk_score_eq_sum, risk_score_eq_sum]
    exact (h.map (fun v => specWeight v.rule)).sum_eq
  exact ⟨hs, by rw [assess_eq_specLevel, assess_eq_specLevel, hs]⟩

theorem assess_risk_level_perm_invariant_witness :
    risk_score [sampleFinding ("consent_violation".toList),
        sampleFinding ("data_breach".toList)] =
      risk_score [sampleFinding ("data_breach".toList),
        sampleFinding ("consent_violation".toList)] ∧
    assess_risk_level [sampleFinding ("consent_violation".toList),
        sampleFinding ("data_breach".toList)] =
      assess_risk_level [sampleFinding ("data_breach".toList),
        sampleFinding ("consent_violation".toList)] :=
  assess_risk_level_perm_invariant _ _ (by decide)

/-- Claim C10: appending one more finding never lowers the risk level
under the order Low < Medium < High: every finding's weight is strictly
positive and the score-to-level thresholds are monotone. -/
theorem assess_risk_level_monotone_append :
    ∀ (vs : List Finding) (f : Finding),
      levelRank (assess_risk_level vs) ≤
        levelRank (assess_risk_level (vs ++ [f])) := by
  intro vs f
  rw [assess_eq_specLevel, assess_eq_specLevel, levelRank_specLevel,
    levelRank_specLevel]
  have h1 : risk_score (vs ++ [f]) = risk_score vs + specWeight f.rule := by
    rw [risk_score_eq_sum, risk_score_eq_sum]
    simp
  have h2 := specWeight_pos f.rule
  rw [h1]
  split_ifs <;> omega

/-- Claim C4: the context extractor returns exactly the clamped slice
`text[max(start-window,0) : min(end+window, len(text))]` (a pure total
function of its inputs), and on a 50-character text
`extract(text, 10, 20, window=100)` returns `text[0:50]`. -/
theorem extract_context_clamped_slice :
    (∀ (text : Str) (s e w : Nat),
      extract_context text s e w = pySlice text (s - w) (min (e + w) text.length)) ∧
    (∀ text : Str, text.length = 50 →
      extract_context text 10 20 100 = pySlice text 0 50) := by
  constructor
  · exact extract_context_eq_natSlice
  · intro text h
    rw [extract_context_eq_natSlice]
    norm_num [h]

theorem extract_context_clamped_slice_witness :
    ("01234567890123456789012345678901234567890123456789".toList).length = 50 ∧
    extract_context ("01234567890123456789012345678901234567890123456789".toList) 10 20 100 =
      pySlice ("01234567890123456789012345678901234567890123456789".toList) 0 50 :=
  ⟨by decide,
   extract_context_clamped_slice.2
     ("01234567890123456789012345678901234567890123456789".toList) (by decide)⟩

/-- Claim C3: a scan with a succeeding adjudicator returns exactly one
finding per span the matcher yields for each rule — outer loop over rules
in the rule mapping's insertion order, inner loop over spans in the
matcher's left-to-right order — so the total finding count is the sum over
rules of that rule's match count. -/
theorem rule_based_scan_one_finding_per_match :
    ∀ (g : Str → Str) (fd : Str → Str → List (Nat × Nat))
      (rules : List (Str × Str)) (text : Str),
      rule_based_scan (fun p => .ok (g p)) fd text rules =
        .ok (scan_flat g fd text rules) ∧
      (scan_flat g fd text rules).length =
        (rules.map (fun lp => (fd lp.2 text).length)).sum := by
  intro g fd rules text
  refine ⟨rule_based_scan_pure g fd text rules, ?_⟩
  simp only [scan_flat, List.length_flatMap]
  congr 1
  congr 1
  funext lp
  simp [Function.comp, List.length_map]

/-- Claim C9: every finding a scan produces has its matched text as a
contiguous substring of its context, because the context slice spans from
`max(start-window,0)` to `min(end+window,len)` and so covers the match
span.  The matcher is assumed to yield well-formed spans
(`start ≤ end ≤ len`), as `re.finditer` does. -/
theorem scan_finding_matched_within_context :
    ∀ (g : Str → Str) (fd : Str → Str → List (Nat × Nat))
      (rules : List (Str × Str)) (text : Str) (l : List Finding),
      (∀ lp ∈ rules, ∀ se ∈ fd lp.2 text, se.1 ≤ se.2 ∧ se.2 ≤ text.length) →
      rule_based_scan (fun p => .ok (g p)) fd text rules = .ok l →
      ∀ v ∈ l, ∃ pre post, v.context = pre ++ v.matched ++ post := by
  intro g fd rules text l hvalid hscan v hv
  rw [rule_based_scan_pure] at hscan
  have hl : scan_flat g fd text rules = l := by
    injection hscan
  subst hl
  simp only [scan_flat, List.mem_flatMap, List.mem_map] at hv
  obtain ⟨lp, hlp, se, hse, rfl⟩ := hv
  obtain ⟨h1, h2⟩ := hvalid lp hlp se hse
  exact extract_context_decomp text se.1 se.2 h1 h2

theorem scan_finding_matched_within_context_witness :
    ∃ pre post,
      extract_context ("My data breach".toList) 3 14 =
        pre ++ pySlice ("My data breach".toList) 3 14 ++ post := by
  have happly := scan_finding_matched_within_context
    (fun _ => "yes".toList) lit_finditer
    [("data_breach".toList, "data breach".toList)] ("My data breach".toList)
    (scan_flat (fun _ => "yes".toList) lit_finditer ("My data breach".toList)
      [("data_breach".toList, "data breach".toList)])
    (by decide)
    (rule_based_scan_pure _ _ _ _)
  exact happly
    (mkFinding ("data_breach".toList)
      (pySlice ("My data breach".toList) 3 14)
      (extract_context ("My data breach".toList) 3 14)
      ("yes".toList))
    (by decide)

/-- Claim C6 counterexample: with a matcher that finds a match and an
adjudicator whose call errors, `rule_based_scan` returns that error — the
finding is not retained and the scan is aborted, contradicting the claim
that an adjudication failure never removes a finding and never aborts the
scan.  (The source guards `self.llm.invoke` with no `try`/`except`.) -/
theorem rule_based_scan_failure_drops_finding_cex :
    lit_finditer ("data breach".toList) ("My data breach".toList) = [(3, 14)] ∧
    rule_based_scan (fun _ => .error ("LLM down".toList)) lit_finditer
      ("My data breach".toList) [("data_breach".toList, "data breach".toList)] =
      .error ("LLM down".toList) := by
  exact ⟨by decide, rfl⟩

/-- Claim C6 amended: if the per-finding judgment call errors, the error
propagates out of `rule_based_scan`: whenever any rule has at least one
match, a scan with a failing adjudicator aborts with that error and
returns no findings at all. -/
theorem rule_based_scan_error_aborts :
    ∀ (err : Str) (fd : Str → Str → List (Nat × Nat))
      (rules : List (Str × Str)) (text : Str),
      0 < (rules.map (fun lp => (fd lp.2 text).length)).sum →
      rule_based_scan (fun _ => .error err) fd text rules = .error err := by
  intro err fd rules text h
  induction rules with
  | nil => simp at h
  | cons lp rest ih =>
      obtain ⟨label, pat⟩ := lp
      cases hfd : fd pat text with
      | nil =>
          have hrest : rule_based_scan (fun _ => .error err) fd text rest =
              .error err := by
            apply ih
            simpa [hfd] using h
          simp [rule_based_scan, hfd, scan_matches, except_bind_ok, hrest]
      | cons sp tail =>
          obtain ⟨s, e⟩ := sp
          simp [rule_based_scan, hfd, scan_matches, except_bind_error]

theorem rule_based_scan_error_aborts_witness :
    rule_based_scan (fun _ => .error ("adjudicator offline".toList)) lit_finditer
      ("no consent given".toList)
      [("consent_violation".toList, "consent".toList)] =
      .error ("adjudicator offline".toList) :=
  rule_based_scan_error_aborts ("adjudicator offline".toList) lit_finditer
    [("consent_violation".toList, "consent".toList)] ("no consent given".toList)
    (by decide)

/-- Claim C5 counterexample: constructing the analyzer with a rule source
that parses as JSON succeeds even when the parsed value holds a pattern
that does not compile (`"("`) or is not a string-to-string mapping at all
(a bare number): `json.load`'s result is stored with no validation and no
pattern compilation, so a successful load does not imply every pattern
compiles. -/
theorem ruleset_load_unvalidated_cex :
    analysis_init_rules
        (.ok (JsonValue.obj [("rule1".toList, JsonValue.str ("(".toList))])) =
      .ok (JsonValue.obj [("rule1".toList, JsonValue.str ("(".toList))]) ∧
    re_compile_ok ("(".toList) = false ∧
    analysis_init_rules (.ok (JsonValue.num 42)) = .ok (JsonValue.num 42) := by
  exact ⟨rfl, by decide, rfl⟩

/-- Claim C5 amended: loading the rule set fails exactly when the JSON
parse fails; whatever value the parser produces is stored as-is, with no
string-to-string shape validation and no regular-expression compilation
(patterns first reach the regex engine at scan time, via `re.finditer`). -/
theorem ruleset_load_is_parser_passthrough :
    (∀ v : JsonValue, analysis_init_rules (.ok v) = .ok v) ∧
    (∀ err : Str, analysis_init_rules (.error err) = .error err) :=
  ⟨fun _ => rfl, fun _ => rfl⟩

/-- Claim C7: an unsupported file extension makes `analyze_file` fail with
the document-load error before any scanning, adjudication or risk
aggregation (the result does not depend on the scanner, the adjudicator or
the agent); on a supported path with succeeding collaborators it runs
load, then scan, then risk aggregation, then summary generation, and
returns the record of findings, summary and risk level. -/
theorem analyze_file_orchestration :
    (∀ tl pl dl llm fd rules ask file_path query,
      endsWith file_path (".txt".toList) = false →
      endsWith file_path (".pdf".toList) = false →
      endsWith file_path (".docx".toList) = false →
      analyze_file tl pl dl llm fd rules ask file_path query =
        .error ("Unsupported file type".toList)) ∧
    (∀ (docs : List Str) pl dl (g : Str → Str)
      (fd : Str → Str → List (Nat × Nat)) (rules : List (Str × Str))
      (a : Str → Str) (stem : Str),
      analyze_file (fun _ => .ok docs) pl dl (fun p => .ok (g p)) fd rules
        (fun q => .ok (a q)) (stem ++ ".txt".toList) none =
        .ok { rule_based_violations :=
                scan_flat g fd (pyJoin ("\n".toList) docs) rules
              ai_summary := a default_query
              risk_level :=
                assess_risk_level
                  (scan_flat g fd (pyJoin ("\n".toList) docs) rules) }) := by
  constructor
  · intro tl pl dl llm fd rules ask file_path query h1 h2 h3
    have hload : load_documents tl pl dl file_path =
        .error ("Unsupported file type".toList) := by
      simp only [load_documents]
      rw [h1, h2, h3]
      rfl
    simp only [analyze_file]
    rw [hload]
    rfl
  · intro docs pl dl g fd rules a stem
    have hsuf : endsWith (stem ++ ".txt".toList) (".txt".toList) = true := by
      simp only [endsWith, List.isSuffixOf_iff_suffix]
      exact List.suffix_append stem (".txt".toList)
    have hload : load_documents (fun _ => .ok docs) pl dl (stem ++ ".txt".toList) =
        .ok (pyJoin ("\n".toList) docs) := by
      simp only [load_documents]
      rw [hsuf]
      rfl
    simp only [analyze_file]
    rw [hload]
    simp only [except_bind_ok]
    rw [rule_based_scan_pure]
    rfl

theorem analyze_file_orchestration_witness :
    analyze_file (fun _ => .ok []) (fun _ => .ok []) (fun _ => .ok [])
      (fun _ => .error ("llm reached".toList)) (fun _ _ => [(0, 0)]) []
      (fun _ => .error ("agent reached".toList))
      ("policy.csv".toList) none = .error ("Unsupported file type".toList) :=
  analyze_file_orchestration.1 _ _ _ _ _ _ _ ("policy.csv".toList) none
    (by decide) (by decide) (by decide)
